import Mathlib

/-!
Verification development for the digital-lock-system repository.

The repository contains two variants of the same PIN-lock firmware:

* `src/main.c` — the OLED variant: the state machine in `main` drives an
  SSD1306 text display (`displayMessage`) and two indicator LEDs
  (`setLockedLEDOn/Off`, `setUnlockedLEDOn/Off`, `flashLockedLED`), and
  `getKeypadInput` decodes P2.3–P2.6 with a right shift by 3.

* `src/unnamed/part_000` (first unit, "main copy 2.c") — the 7-segment
  variant: the same state machine drives a 4-digit 7-segment display via
  `updateDisplay` / `clearDisplay` / `displayError`, and its
  `getKeypadInput` masks P2.3–P2.6 but shifts right by only 2.

Shallow embedding: the global variables `mode : int`,
`storedPassword : char[5]`, `enteredPassword : char[5]` together with the
running `index` (which always equals `strlen(enteredPassword)`) become the
structure `LockState`; one iteration of the `while(1)` body for a non-zero
key becomes a pure function `LockState → Char → LockState × List Output`,
where `Output` records the render / indicator calls the iteration makes, in
order.  The keypad scanners become pure functions of the retained
`lastKey` (a `static char`, with the C sentinel `0` embedded as `none`)
and the sampled 8-bit `P2IN` value.
-/

/-- Render / indicator side effects issued by one loop iteration, in order.
`msg` is `displayMessage` (OLED variant); `ledLocked` / `ledUnlocked` are
`setLockedLEDOn/Off` and `setUnlockedLEDOn/Off`; `flashLocked` is
`flashLockedLED`.  `render` is one latched `updateDisplay` frame of the
7-segment variant, carrying the four digit values put on P6OUT; `dwell`
is the fixed `__delay_cycles(200000)` hold inside `displayError`. -/
inductive Output where
  | msg (s : String)
  | ledLocked (b : Bool)
  | ledUnlocked (b : Bool)
  | flashLocked
  | render (digits : List Nat)
  | dwell
deriving DecidableEq, Repr

/-- The mutable state of the lock controller: `mode` (the C `int mode`,
only ever assigned 0 = Unlocked, 1 = Set PIN, 2 = Locked, 3 = Enter PIN),
`stored` (the characters of `storedPassword`), and `entry` (the characters
of `enteredPassword`; the C `index` equals `entry.length`). -/
structure LockState where
  mode : Nat
  stored : List Char
  entry : List Char
deriving DecidableEq, Repr

/-- The default PIN `"0000"` (initializer of `storedPassword`). -/
def pinDefault : List Char := ['0', '0', '0', '0']

/-- Initial state of both variants: `mode = 0`, `storedPassword = "0000"`,
`enteredPassword` empty. -/
def initState : LockState := ⟨0, pinDefault, []⟩

/-- The C digit test for a key press: `key >= '0' && key <= '9'`. -/
def isDigitKey (c : Char) : Bool := decide ('0' ≤ c ∧ c ≤ '9')

def msgUnlocked : String := "Unlocked. Press A to set PIN"
def msgEnterNew : String := "Enter New PIN:"
def msgLocked : String := "Locked. Press C to enter PIN"
def msgEnterPin : String := "Enter PIN, then press D"
def msgWrongPin : String := "Wrong PIN! Press C to try again"

/-- One iteration of the `while(1)` body of `main` in `src/main.c` (the
OLED variant), for a non-zero `key`.  Returns the updated globals and the
ordered list of display / LED calls the iteration performs. -/
def handleOled (s : LockState) (key : Char) : LockState × List Output :=
  if s.mode = 0 then
    if key = 'A' then
      ({s with mode := 1, entry := []},
       [Output.msg msgEnterNew, Output.ledLocked false, Output.ledUnlocked false])
    else (s, [])
  else if s.mode = 1 then
    if isDigitKey key then
      if s.entry.length < 4 then
        ({s with entry := s.entry ++ [key]},
         [Output.msg (String.mk (s.entry ++ [key]))])
      else (s, [])
    else if key = 'B' then
      if s.entry.length = 4 then
        ({s with stored := s.entry, mode := 2},
         [Output.msg msgLocked, Output.ledLocked true, Output.ledUnlocked false])
      else (s, [])
    else (s, [])
  else if s.mode = 2 then
    if key = 'C' then
      ({s with mode := 3, entry := []},
       [Output.msg msgEnterPin, Output.ledLocked true, Output.ledUnlocked false])
    else (s, [])
  else if s.mode = 3 then
    if isDigitKey key then
      if s.entry.length < 4 then
        ({s with entry := s.entry ++ [key]},
         [Output.msg (String.mk (s.entry ++ [key]))])
      else (s, [])
    else if key = 'D' then
      if s.entry.length = 4 then
        if s.stored = s.entry then
          ({s with mode := 0},
           [Output.msg msgUnlocked, Output.ledLocked false, Output.ledUnlocked true])
        else
          ({s with mode := 2},
           [Output.msg msgWrongPin, Output.flashLocked,
            Output.ledLocked true, Output.ledUnlocked false])
      else (s, [])
    else (s, [])
  else (s, [])

/-- 7-segment variant, `updateDisplay`: the value driven onto P6OUT for
one character of the display buffer (`digitVal`): an ASCII digit maps to
its value, anything else to 0. -/
def segDigit (c : Char) : Nat :=
  if '0' ≤ c ∧ c ≤ '9' then c.toNat - Char.toNat '0' else 0

/-- 7-segment variant, `updateDisplay`: filling `displayBuffer` — the
first 4 characters of the argument, padded on the right with `'0'`. -/
def padTo4 (ds : List Char) : List Char :=
  (List.range 4).map (fun i => ds.getD i '0')

/-- One latched `updateDisplay(digits)` frame: the four digit values sent
to the 7-segment decoder. -/
def updateDisplayOut (ds : List Char) : Output :=
  Output.render ((padTo4 ds).map segDigit)

/-- `clearDisplay()` of the 7-segment variant: `updateDisplay("0000")`. -/
def clearDisplayOut : Output := updateDisplayOut ['0', '0', '0', '0']

/-- `displayError()` of the 7-segment variant: `updateDisplay("8888")`
followed by the fixed 200000-cycle dwell. -/
def displayErrorOut : List Output := [updateDisplayOut ['8', '8', '8', '8'], Output.dwell]

/-- One iteration of the `while(1)` body of `main` in the 7-segment
variant (`src/unnamed/part_000`, first unit), for a non-zero `key`. -/
def handleSeg (s : LockState) (key : Char) : LockState × List Output :=
  if s.mode = 0 then
    if key = 'A' then
      ({s with mode := 1, entry := []}, [clearDisplayOut])
    else (s, [])
  else if s.mode = 1 then
    if isDigitKey key then
      if s.entry.length < 4 then
        ({s with entry := s.entry ++ [key]}, [updateDisplayOut (s.entry ++ [key])])
      else (s, [])
    else if key = 'B' then
      if s.entry.length = 4 then
        ({s with stored := s.entry, mode := 2}, [updateDisplayOut s.entry])
      else (s, [])
    else (s, [])
  else if s.mode = 2 then
    if key = 'C' then
      ({s with mode := 3, entry := []}, [clearDisplayOut])
    else (s, [])
  else if s.mode = 3 then
    if isDigitKey key then
      if s.entry.length < 4 then
        ({s with entry := s.entry ++ [key]}, [updateDisplayOut (s.entry ++ [key])])
      else (s, [])
    else if key = 'D' then
      if s.entry.length = 4 then
        if s.stored = s.entry then
          ({s with mode := 0}, [updateDisplayOut s.stored])
        else
          ({s with mode := 2}, displayErrorOut ++ [updateDisplayOut s.stored])
      else (s, [])
    else (s, [])
  else (s, [])

/-- State part of one OLED-variant iteration. -/
def stepOled (s : LockState) (key : Char) : LockState := (handleOled s key).1

/-- Folding a whole key sequence through the OLED-variant state machine. -/
def runOled (s : LockState) (keys : List Char) : LockState :=
  keys.foldl stepOled s

/-- The shared 16-entry `switch (bcd)` lookup table of both
`getKeypadInput` implementations (the two variants' tables are
textually identical); the C sentinel `key = 0` of the `default` case is
embedded as `none`. -/
def decodeKey (bcd : Nat) : Option Char :=
  if bcd = 0 then some '1'
  else if bcd = 1 then some '2'
  else if bcd = 2 then some '3'
  else if bcd = 3 then some 'A'
  else if bcd = 4 then some '4'
  else if bcd = 5 then some '5'
  else if bcd = 6 then some '6'
  else if bcd = 7 then some 'B'
  else if bcd = 8 then some '7'
  else if bcd = 9 then some '8'
  else if bcd = 10 then some '9'
  else if bcd = 11 then some 'C'
  else if bcd = 12 then some '*'
  else if bcd = 13 then some '0'
  else if bcd = 14 then some '#'
  else if bcd = 15 then some 'D'
  else none

/-- `getKeypadInput` of `src/main.c` (OLED variant).  `lastKey` is the
retained `static char lastKey` (`none` for the C value 0); `p2in` is the
sampled 8-bit `P2IN` register.  The code computes
`bcd = (P2IN & (BIT3|BIT4|BIT5|BIT6)) >> 3`, looks it up, returns 0
(here `none`) without touching `lastKey` when the key repeats, and
otherwise stores and returns the key.  Result: (new `lastKey`, returned
key). -/
def getKeypadInput (lastKey : Option Char) (p2in : Nat) : Option Char × Option Char :=
  let bcd := Nat.land (p2in % 256) 0x78 >>> 3
  let key := decodeKey bcd
  if key = lastKey then (lastKey, none)
  else (key, key)

/-- `getKeypadInput` of the 7-segment variant (`src/unnamed/part_000`,
first unit): identical except that the masked value is shifted right by
only 2: `bcd = (P2IN & (BIT3|BIT4|BIT5|BIT6)) >> 2`. -/
def getKeypadInputSeg (lastKey : Option Char) (p2in : Nat) : Option Char × Option Char :=
  let bcd := Nat.land (p2in % 256) 0x78 >>> 2
  let key := decodeKey bcd
  if key = lastKey then (lastKey, none)
  else (key, key)

/-- The idle `P2IN` sample: `setupGPIO` enables pull-up resistors on
P2.3–P2.6 (`P2REN |= …; P2OUT |= …`), so with no key pressed those four
input lines read high: bits 3–6 set, i.e. 0x78. -/
def idleP2IN : Nat := 0x78

/-- A key for the current mode matches a row of the spec's transition
table. -/
def rowMatch (s : LockState) (k : Char) : Prop :=
  (s.mode = 0 ∧ k = 'A') ∨
  (s.mode = 1 ∧ isDigitKey k = true ∧ s.entry.length < 4) ∨
  (s.mode = 1 ∧ k = 'B' ∧ s.entry.length = 4) ∨
  (s.mode = 2 ∧ k = 'C') ∨
  (s.mode = 3 ∧ isDigitKey k = true ∧ s.entry.length < 4) ∨
  (s.mode = 3 ∧ k = 'D' ∧ s.entry.length = 4)

/-- Invariant carried by every reachable state: the stored PIN is 4 digit
characters and the entry buffer holds at most 4 digit characters. -/
def pinInv (s : LockState) : Prop :=
  s.stored.length = 4 ∧ s.stored.all isDigitKey = true ∧
  s.entry.length ≤ 4 ∧ s.entry.all isDigitKey = true

/-! ### Helper lemmas about the state machine -/

/-- A digit key is none of the command keys. -/
lemma digit_ne_cmd {k : Char} (hk : isDigitKey k = true) :
    k ≠ 'A' ∧ k ≠ 'B' ∧ k ≠ 'C' ∧ k ≠ 'D' := by
  refine ⟨?_, ?_, ?_, ?_⟩ <;> rintro rfl <;> revert hk <;> decide

/-- Branch evaluation: a digit key with room in the buffer appends it
(OLED variant). -/
lemma handleOled_digit_lt (s : LockState) (k : Char) (hm : s.mode = 1 ∨ s.mode = 3)
    (hk : isDigitKey k = true) (hl : s.entry.length < 4) :
    handleOled s k =
      ({s with entry := s.entry ++ [k]}, [Output.msg (String.mk (s.entry ++ [k]))]) := by
  rcases hm with h | h <;> (unfold handleOled; rw [h]; simp +decide [hk, hl])

/-- Branch evaluation: a digit key with a full buffer is ignored in every
mode (OLED variant). -/
lemma handleOled_digit_full (s : LockState) (k : Char) (hk : isDigitKey k = true)
    (hl : s.entry.length = 4) : handleOled s k = (s, []) := by
  obtain ⟨hA, hB, hC, hD⟩ := digit_ne_cmd hk
  unfold handleOled
  simp +decide [hk, hl, hA, hB, hC, hD]

/-- A key matching no row of the transition table leaves the OLED-variant
iteration completely inert. -/
lemma handleOled_noop (s : LockState) (k : Char) (h : ¬ rowMatch s k) :
    handleOled s k = (s, []) := by
  unfold rowMatch at h
  push_neg at h
  obtain ⟨h1, h2, h3, h4, h5, h6⟩ := h
  unfold handleOled
  by_cases m0 : s.mode = 0
  · rw [if_pos m0, if_neg (h1 m0)]
  · rw [if_neg m0]
    by_cases m1 : s.mode = 1
    · rw [if_pos m1]
      by_cases kd : isDigitKey k = true
      · rw [if_pos kd, if_neg (Nat.not_lt.mpr (h2 m1 kd))]
      · rw [if_neg kd]
        by_cases kB : k = 'B'
        · rw [if_pos kB, if_neg (h3 m1 kB)]
        · rw [if_neg kB]
    · rw [if_neg m1]
      by_cases m2 : s.mode = 2
      · rw [if_pos m2, if_neg (h4 m2)]
      · rw [if_neg m2]
        by_cases m3 : s.mode = 3
        · rw [if_pos m3]
          by_cases kd : isDigitKey k = true
          · rw [if_pos kd, if_neg (Nat.not_lt.mpr (h5 m3 kd))]
          · rw [if_neg kd]
            by_cases kD : k = 'D'
            · rw [if_pos kD, if_neg (h6 m3 kD)]
            · rw [if_neg kD]
        · rw [if_neg m3]

/-- A key matching no row of the transition table leaves the 7-segment
iteration completely inert. -/
lemma handleSeg_noop (s : LockState) (k : Char) (h : ¬ rowMatch s k) :
    handleSeg s k = (s, []) := by
  unfold rowMatch at h
  push_neg at h
  obtain ⟨h1, h2, h3, h4, h5, h6⟩ := h
  unfold handleSeg
  by_cases m0 : s.mode = 0
  · rw [if_pos m0, if_neg (h1 m0)]
  · rw [if_neg m0]
    by_cases m1 : s.mode = 1
    · rw [if_pos m1]
      by_cases kd : isDigitKey k = true
      · rw [if_pos kd, if_neg (Nat.not_lt.mpr (h2 m1 kd))]
      · rw [if_neg kd]
        by_cases kB : k = 'B'
        · rw [if_pos kB, if_neg (h3 m1 kB)]
        · rw [if_neg kB]
    · rw [if_neg m1]
      by_cases m2 : s.mode = 2
      · rw [if_pos m2, if_neg (h4 m2)]
      · rw [if_neg m2]
        by_cases m3 : s.mode = 3
        · rw [if_pos m3]
          by_cases kd : isDigitKey k = true
          · rw [if_pos kd, if_neg (Nat.not_lt.mpr (h5 m3 kd))]
          · rw [if_neg kd]
            by_cases kD : k = 'D'
            · rw [if_pos kD, if_neg (h6 m3 kD)]
            · rw [if_neg kD]
        · rw [if_neg m3]

/-- Branch evaluation: pressing `A` while unlocked (OLED variant). -/
lemma handleOled_A (s : LockState) (h0 : s.mode = 0) :
    handleOled s 'A' =
      ({s with mode := 1, entry := []},
       [Output.msg msgEnterNew, Output.ledLocked false, Output.ledUnlocked false]) := by
  unfold handleOled
  rw [h0]
  simp +decide

/-- Branch evaluation: confirming a new PIN with a full buffer (OLED
variant). -/
lemma handleOled_B (s : LockState) (h1 : s.mode = 1) (h4 : s.entry.length = 4) :
    handleOled s 'B' =
      ({s with stored := s.entry, mode := 2},
       [Output.msg msgLocked, Output.ledLocked true, Output.ledUnlocked false]) := by
  unfold handleOled
  rw [h1, h4]
  simp +decide

/-- Branch evaluation: pressing `C` while locked (OLED variant). -/
lemma handleOled_C (s : LockState) (h2 : s.mode = 2) :
    handleOled s 'C' =
      ({s with mode := 3, entry := []},
       [Output.msg msgEnterPin, Output.ledLocked true, Output.ledUnlocked false]) := by
  unfold handleOled
  rw [h2]
  simp +decide

/-- Branch evaluation: confirming a matching PIN (OLED variant). -/
lemma handleOled_D_eq (s : LockState) (h3 : s.mode = 3) (h4 : s.entry.length = 4)
    (he : s.stored = s.entry) :
    handleOled s 'D' =
      ({s with mode := 0},
       [Output.msg msgUnlocked, Output.ledLocked false, Output.ledUnlocked true]) := by
  unfold handleOled
  rw [h3, h4]
  simp +decide [he]

/-- Branch evaluation: confirming a mismatching PIN (OLED variant). -/
lemma handleOled_D_ne (s : LockState) (h3 : s.mode = 3) (h4 : s.entry.length = 4)
    (he : s.stored ≠ s.entry) :
    handleOled s 'D' =
      ({s with mode := 2},
       [Output.msg msgWrongPin, Output.flashLocked,
        Output.ledLocked true, Output.ledUnlocked false]) := by
  unfold handleOled
  rw [h3, h4]
  simp +decide [he]

/-- Feeding digit keys while in mode 1 or 3 appends them up to the
4-character cap and changes nothing else. -/
lemma runOled_digits (ds : List Char) : ∀ s : LockState, s.mode = 1 ∨ s.mode = 3 →
    s.entry.length ≤ 4 → (∀ d ∈ ds, isDigitKey d = true) →
    runOled s ds = {s with entry := s.entry ++ List.take (4 - s.entry.length) ds} := by
  induction ds with
  | nil =>
    intro s _ _ _
    simp only [runOled, List.foldl_nil, List.take_nil, List.append_nil]
  | cons d ds ih =>
    intro s hm hl hd
    have hdd : isDigitKey d = true := hd d (List.mem_cons_self d ds)
    have hds : ∀ x ∈ ds, isDigitKey x = true := fun x hx => hd x (List.mem_cons_of_mem d hx)
    have hfold : runOled s (d :: ds) = runOled (stepOled s d) ds := by
      simp only [runOled, List.foldl_cons]
    by_cases hlt : s.entry.length < 4
    · have hstep : stepOled s d = {s with entry := s.entry ++ [d]} := by
        unfold stepOled
        rw [handleOled_digit_lt s d hm hdd hlt]
      have hlen : ({s with entry := s.entry ++ [d]} : LockState).entry.length ≤ 4 := by
        simp only [List.length_append, List.length_cons, List.length_nil]
        omega
      have := ih {s with entry := s.entry ++ [d]} hm hlen hds
      rw [hfold, hstep, this]
      have htake : (4 : Nat) - s.entry.length = (4 - (s.entry.length + 1)) + 1 := by omega
      rw [htake, List.take_succ_cons]
      simp only [List.length_append, List.length_cons, List.length_nil,
        List.append_assoc, List.singleton_append]
    · have h4 : s.entry.length = 4 := by omega
      have hstep : stepOled s d = s := by
        unfold stepOled
        rw [handleOled_digit_full s d hdd h4]
      rw [hfold, hstep, ih s hm hl hds, h4]
      simp only [Nat.sub_self, List.take_zero]

/-- The reachable-state invariant holds initially. -/
lemma pinInv_init : pinInv initState := by
  unfold pinInv initState pinDefault
  refine ⟨rfl, rfl, by simp, rfl⟩

/-- The reachable-state invariant is preserved by every key. -/
lemma pinInv_step (s : LockState) (k : Char) (h : pinInv s) : pinInv (stepOled s k) := by
  obtain ⟨hs4, hsd, hel, hed⟩ := h
  by_cases hr : rowMatch s k
  · rcases hr with ⟨h0, hk⟩ | ⟨h1, hk, hlt⟩ | ⟨h1, hk, h4⟩ | ⟨h2, hk⟩ | ⟨h3, hk, hlt⟩ | ⟨h3, hk, h4⟩
    · subst hk
      unfold stepOled
      rw [handleOled_A s h0]
      exact ⟨hs4, hsd, by simp, rfl⟩
    · unfold stepOled
      rw [handleOled_digit_lt s k (Or.inl h1) hk hlt]
      refine ⟨hs4, hsd, ?_, ?_⟩
      · simp only [List.length_append, List.length_cons, List.length_nil]
        omega
      · simp [List.all_append, hed, hk]
    · subst hk
      unfold stepOled
      rw [handleOled_B s h1 h4]
      exact ⟨h4, hed, hel, hed⟩
    · subst hk
      unfold stepOled
      rw [handleOled_C s h2]
      exact ⟨hs4, hsd, by simp, rfl⟩
    · unfold stepOled
      rw [handleOled_digit_lt s k (Or.inr h3) hk hlt]
      refine ⟨hs4, hsd, ?_, ?_⟩
      · simp only [List.length_append, List.length_cons, List.length_nil]
        omega
      · simp [List.all_append, hed, hk]
    · subst hk
      unfold stepOled
      by_cases he : s.stored = s.entry
      · rw [handleOled_D_eq s h3 h4 he]
        exact ⟨hs4, hsd, hel, hed⟩
      · rw [handleOled_D_ne s h3 h4 he]
        exact ⟨hs4, hsd, hel, hed⟩
  · unfold stepOled
    rw [handleOled_noop s k hr]
    exact ⟨hs4, hsd, hel, hed⟩

/-- The reachable-state invariant holds after any key sequence. -/
lemma pinInv_run (ks : List Char) : ∀ s : LockState, pinInv s → pinInv (runOled s ks) := by
  induction ks with
  | nil => intro s h; exact h
  | cons k ks ih =>
    intro s h
    have : runOled s (k :: ks) = runOled (stepOled s k) ks := by
      simp only [runOled, List.foldl_cons]
    rw [this]
    exact ih _ (pinInv_step s k h)

/-- `storedPassword` is written only by the `B`-confirmation branch of
mode 1 with a full buffer (OLED variant). -/
lemma stored_frame (s : LockState) (k : Char)
    (h : ¬(s.mode = 1 ∧ k = 'B' ∧ s.entry.length = 4)) :
    (handleOled s k).1.stored = s.stored := by
  by_cases hr : rowMatch s k
  · rcases hr with ⟨h0, hk⟩ | ⟨h1, hk, hlt⟩ | ⟨h1, hk, h4⟩ | ⟨h2, hk⟩ | ⟨h3, hk, hlt⟩ | ⟨h3, hk, h4⟩
    · subst hk; rw [handleOled_A s h0]
    · rw [handleOled_digit_lt s k (Or.inl h1) hk hlt]
    · exact absurd ⟨h1, hk, h4⟩ h
    · subst hk; rw [handleOled_C s h2]
    · rw [handleOled_digit_lt s k (Or.inr h3) hk hlt]
    · subst hk
      by_cases he : s.stored = s.entry
      · rw [handleOled_D_eq s h3 h4 he]
      · rw [handleOled_D_ne s h3 h4 he]
  · rw [handleOled_noop s k hr]

/-! ### Helper lemmas about the keypad scanners -/

/-- Unmapped codes start strictly above 15: every `switch` case falls
through to `default` there. -/
lemma decodeKey_gt15 (c : Nat) (hc : 15 < c) : decodeKey c = none := by
  unfold decodeKey
  repeat rw [if_neg (by omega)]

set_option maxRecDepth 8192 in
/-- The 7-segment variant's code `(P2IN & 0x78) >> 2` is always even and
at most 30. -/
lemma segCode_even_le (r : Nat) (hr : r < 256) :
    (Nat.land r 0x78 >>> 2) % 2 = 0 ∧ Nat.land r 0x78 >>> 2 ≤ 30 := by
  revert hr
  revert r
  decide

set_option maxRecDepth 8192 in
/-- Decoding a 7-segment-variant code can only yield one of the keys
sitting on an even table index below 16 (or nothing). -/
lemma segDecode_mem (r : Nat) (hr : r < 256) :
    decodeKey (Nat.land r 0x78 >>> 2) ∈
      ([none, some '1', some '3', some '4', some '6', some '7',
        some '9', some '*', some '#'] : List (Option Char)) := by
  revert hr
  revert r
  decide

set_option maxRecDepth 8192 in
/-- The OLED variant's code `(P2IN & 0x78) >> 3` is always a mapped table
index, so its decode is never `none`. -/
lemma oledDecode_ne_none (r : Nat) (hr : r < 256) :
    decodeKey (Nat.land r 0x78 >>> 3) ≠ none := by
  revert hr
  revert r
  decide

/-- A sequence of consecutive polls of the OLED-variant scanner: threads
the retained `lastKey` through `getKeypadInput` for each successive
`P2IN` sample and collects the returned keys in order. -/
def scanRunOled (lastKey : Option Char) (samples : List Nat) :
    Option Char × List (Option Char) :=
  match samples with
  | [] => (lastKey, [])
  | p :: ps =>
    let r := getKeypadInput lastKey p
    let rest := scanRunOled r.1 ps
    (rest.1, r.2 :: rest.2)

/-- Over any sample sequence, the OLED scanner's non-`None` results never
repeat back to back, and the first reported key differs from the retained
one. -/
lemma scanRunOled_chain (samples : List Nat) : ∀ lastKey : Option Char,
    List.Chain' (fun a b => a ≠ b) ((scanRunOled lastKey samples).2.reduceOption) ∧
    (∀ k : Char, ((scanRunOled lastKey samples).2.reduceOption).head? = some k →
      some k ≠ lastKey) := by
  induction samples with
  | nil =>
    intro lastKey
    constructor
    · simp only [scanRunOled, List.reduceOption_nil]
      exact List.chain'_nil
    · intro k hk
      simp only [scanRunOled, List.reduceOption_nil, List.head?_nil] at hk
      exact absurd hk (by simp)
  | cons p ps ih =>
    intro lastKey
    have hmod : p % 256 < 256 := Nat.mod_lt _ (by omega)
    have hdec := oledDecode_ne_none (p % 256) hmod
    unfold scanRunOled
    simp only [getKeypadInput]
    by_cases he : decodeKey (Nat.land (p % 256) 0x78 >>> 3) = lastKey
    · rw [if_pos he]
      simp only [List.reduceOption_cons_of_none]
      exact ih lastKey
    · rw [if_neg he]
      obtain ⟨k0, hk0⟩ : ∃ k0 : Char,
          decodeKey (Nat.land (p % 256) 0x78 >>> 3) = some k0 :=
        Option.ne_none_iff_exists'.mp hdec
      rw [hk0]
      simp only [List.reduceOption_cons_of_some]
      constructor
      · rw [List.chain'_cons']
        refine ⟨?_, (ih (some k0)).1⟩
        intro b hb
        have hne := (ih (some k0)).2 b hb
        intro hkb
        exact hne (by rw [hkb])
      · intro k hk
        simp only [List.head?_cons, Option.some.injEq] at hk
        subst hk
        rw [← hk0]
        exact he

/-! ### Claim theorems -/

/-- Claim C1: in mode 3 (EnteringPin) with a full 4-digit buffer, key `D`
moves both variants to mode 0 (Unlocked) exactly when the buffer equals
the stored PIN; otherwise both move to mode 2 (Locked) and the single
iteration emits exactly one transient failure indication (the LED flash,
resp. the dwelled error pattern) before the locked status output. -/
theorem c1_confirmD (s : LockState) (h3 : s.mode = 3) (h4 : s.entry.length = 4) :
    (s.stored = s.entry →
      (handleOled s 'D').1.mode = 0 ∧ (handleSeg s 'D').1.mode = 0) ∧
    (s.stored ≠ s.entry →
      (handleOled s 'D').1.mode = 2 ∧ (handleSeg s 'D').1.mode = 2 ∧
      (handleOled s 'D').2 =
        [Output.msg msgWrongPin, Output.flashLocked,
         Output.ledLocked true, Output.ledUnlocked false] ∧
      List.count Output.flashLocked (handleOled s 'D').2 = 1 ∧
      (handleSeg s 'D').2 =
        [updateDisplayOut ['8', '8', '8', '8'], Output.dwell,
         updateDisplayOut s.stored]) := by
  constructor
  · intro he
    unfold handleOled handleSeg
    rw [h3, h4]
    simp +decide [he]
  · intro hne
    unfold handleOled handleSeg
    rw [h3, h4]
    simp +decide [hne, displayErrorOut]

/-- Witness for C1: a matching and a mismatching confirmation. -/
theorem c1_confirmD_witness :
    (handleOled ⟨3, ['1', '2', '3', '4'], ['1', '2', '3', '4']⟩ 'D').1.mode = 0 ∧
    (handleOled ⟨3, ['1', '2', '3', '4'], ['9', '9', '9', '9']⟩ 'D').1.mode = 2 :=
  ⟨((c1_confirmD ⟨3, ['1', '2', '3', '4'], ['1', '2', '3', '4']⟩ rfl rfl).1 rfl).1,
   ((c1_confirmD ⟨3, ['1', '2', '3', '4'], ['9', '9', '9', '9']⟩ rfl rfl).2 (by decide)).1⟩

/-- Claim C2: in mode 1 (SettingPin) with a full 4-digit buffer, key `B`
overwrites the stored PIN with the buffer contents and moves both variants
to mode 2 (Locked); nothing else changes. -/
theorem c2_setPin (s : LockState) (h1 : s.mode = 1) (h4 : s.entry.length = 4) :
    (handleOled s 'B').1 = {s with mode := 2, stored := s.entry} ∧
    (handleSeg s 'B').1 = {s with mode := 2, stored := s.entry} := by
  unfold handleOled handleSeg
  rw [h1, h4]
  simp +decide

/-- Witness for C2: the default PIN `"0000"` is overwritten by `"1234"`. -/
theorem c2_setPin_witness :
    (handleOled ⟨1, pinDefault, ['1', '2', '3', '4']⟩ 'B').1 =
      ⟨2, ['1', '2', '3', '4'], ['1', '2', '3', '4']⟩ ∧
    (handleSeg ⟨1, pinDefault, ['1', '2', '3', '4']⟩ 'B').1 =
      ⟨2, ['1', '2', '3', '4'], ['1', '2', '3', '4']⟩ :=
  c2_setPin ⟨1, pinDefault, ['1', '2', '3', '4']⟩ rfl rfl

/-- Claim C3: from an empty buffer in mode 1 or 3, a sequence of digit
keys leaves the buffer equal to the first `min(n,4)` digits in order,
never longer than 4, without touching mode or stored PIN; and a digit key
arriving on a full buffer is ignored outright. -/
theorem c3_bufferCap (s0 : LockState) (ds : List Char)
    (hm : s0.mode = 1 ∨ s0.mode = 3) (he : s0.entry = [])
    (hd : ∀ d ∈ ds, isDigitKey d = true) :
    (runOled s0 ds).entry = List.take 4 ds ∧
    (runOled s0 ds).entry.length ≤ 4 ∧
    (runOled s0 ds).mode = s0.mode ∧ (runOled s0 ds).stored = s0.stored ∧
    (∀ s : LockState, ∀ k : Char, s.entry.length = 4 → isDigitKey k = true →
      handleOled s k = (s, [])) := by
  have hrun := runOled_digits ds s0 hm (by rw [he]; simp) hd
  rw [he] at hrun
  simp only [List.nil_append, List.length_nil, Nat.sub_zero] at hrun
  rw [hrun]
  refine ⟨rfl, ?_, rfl, rfl, fun s k h4 hk => handleOled_digit_full s k hk h4⟩
  rw [List.length_take]
  exact min_le_left 4 ds.length

/-- Witness for C3: five digits fed from empty leave `"1234"`; the fifth
digit was ignored. -/
theorem c3_bufferCap_witness :
    (runOled ⟨1, pinDefault, []⟩ ['1', '2', '3', '4', '5']).entry = ['1', '2', '3', '4'] ∧
    handleOled ⟨1, pinDefault, ['1', '2', '3', '4']⟩ '5' =
      (⟨1, pinDefault, ['1', '2', '3', '4']⟩, []) :=
  ⟨(c3_bufferCap ⟨1, pinDefault, []⟩ ['1', '2', '3', '4', '5']
      (Or.inl rfl) rfl (by decide)).1,
   (c3_bufferCap ⟨1, pinDefault, []⟩ ['1', '2', '3', '4', '5']
      (Or.inl rfl) rfl (by decide)).2.2.2.2
     ⟨1, pinDefault, ['1', '2', '3', '4']⟩ '5' rfl (by decide)⟩

/-- Claim C4: a key matching no transition-table row for the current mode
(`*` and `#` in every mode, confirmation keys on a short buffer, etc.)
leaves mode, stored PIN and buffer unchanged and issues no render call,
in both variants. -/
theorem c4_unmatched (s : LockState) (k : Char) (h : ¬ rowMatch s k) :
    handleOled s k = (s, []) ∧ handleSeg s k = (s, []) :=
  ⟨handleOled_noop s k h, handleSeg_noop s k h⟩

/-- Witness for C4: `*` pressed in mode 2, and `D` on a 2-digit buffer. -/
theorem c4_unmatched_witness :
    (¬ rowMatch ⟨2, pinDefault, []⟩ '*' ∧
      handleOled ⟨2, pinDefault, []⟩ '*' = (⟨2, pinDefault, []⟩, [])) ∧
    (¬ rowMatch ⟨3, pinDefault, ['1', '2']⟩ 'D' ∧
      handleSeg ⟨3, pinDefault, ['1', '2']⟩ 'D' = (⟨3, pinDefault, ['1', '2']⟩, [])) :=
  ⟨⟨by unfold rowMatch; decide,
    (c4_unmatched ⟨2, pinDefault, []⟩ '*' (by unfold rowMatch; decide)).1⟩,
   ⟨by unfold rowMatch; decide,
    (c4_unmatched ⟨3, pinDefault, ['1', '2']⟩ 'D' (by unfold rowMatch; decide)).2⟩⟩

/-- Claim C5: every state reachable from the initial state has a stored
PIN of exactly 4 digit characters, and the stored PIN is written only by
the `B`-confirmation in mode 1 with a full buffer — any other key leaves
it unchanged. -/
theorem c5_storedInv (ks : List Char) (s : LockState) (k : Char)
    (h : ¬(s.mode = 1 ∧ k = 'B' ∧ s.entry.length = 4)) :
    (runOled initState ks).stored.length = 4 ∧
    (runOled initState ks).stored.all isDigitKey = true ∧
    (handleOled s k).1.stored = s.stored := by
  have hinv := pinInv_run ks initState pinInv_init
  exact ⟨hinv.1, hinv.2.1, stored_frame s k h⟩

/-- Witness for C5 after a full set-PIN interaction and a non-writing key. -/
theorem c5_storedInv_witness :
    (runOled initState ['A', '1', '2', '3', '4', 'B']).stored.length = 4 ∧
    (runOled initState ['A', '1', '2', '3', '4', 'B']).stored.all isDigitKey = true ∧
    (handleOled initState 'C').1.stored = initState.stored :=
  c5_storedInv ['A', '1', '2', '3', '4', 'B'] initState 'C' (by decide)

/-- Claim C6: a poll returns `None` whenever the newly decoded key equals
the retained key; hence two consecutive polls never both report the same
key, and over any whole sample sequence the subsequence of reported keys
has no two equal neighbours (OLED-variant scanner). -/
theorem c6_debounce (lastKey l : Option Char) (p1 p2 q : Nat)
    (samples : List Nat) (k : Char)
    (h1 : (getKeypadInput lastKey p1).2 = some k)
    (h2 : decodeKey (Nat.land (q % 256) 0x78 >>> 3) = l) :
    (getKeypadInput (getKeypadInput lastKey p1).1 p2).2 ≠ some k ∧
    (getKeypadInput l q).2 = none ∧
    List.Chain' (fun a b => a ≠ b) ((scanRunOled lastKey samples).2.reduceOption) := by
  refine ⟨?_, ?_, (scanRunOled_chain samples lastKey).1⟩
  · simp only [getKeypadInput] at h1 ⊢
    by_cases e1 : decodeKey (Nat.land (p1 % 256) 0x78 >>> 3) = lastKey
    · rw [if_pos e1] at h1
      exact absurd h1 (by simp)
    · rw [if_neg e1] at h1 ⊢
      have h1' : decodeKey (Nat.land (p1 % 256) 0x78 >>> 3) = some k := h1
      by_cases e2 : decodeKey (Nat.land (p2 % 256) 0x78 >>> 3) =
          decodeKey (Nat.land (p1 % 256) 0x78 >>> 3)
      · rw [if_pos e2]
        simp
      · rw [if_neg e2]
        intro hcon
        have hcon' : decodeKey (Nat.land (p2 % 256) 0x78 >>> 3) = some k := hcon
        apply e2
        rw [hcon', h1']
  · simp only [getKeypadInput]
    rw [if_pos h2]

/-- Witness for C6: `'1'` reported on code 0, then suppressed or changed;
a repeated `'D'` sample yields `None`. -/
theorem c6_debounce_witness :
    (getKeypadInput none 0).2 = some '1' ∧
    decodeKey (Nat.land (0x78 % 256) 0x78 >>> 3) = some 'D' ∧
    ((getKeypadInput (getKeypadInput none 0).1 5).2 ≠ some '1' ∧
     (getKeypadInput (some 'D') 0x78).2 = none ∧
     List.Chain' (fun a b => a ≠ b) ((scanRunOled none [0, 0, 8]).2.reduceOption)) :=
  ⟨by decide, by decide,
   c6_debounce none (some 'D') 0 5 0x78 [0, 0, 8] '1' (by decide) (by decide)⟩

/-- Claim C7 counterexample: with the pull-ups configured by `setupGPIO`,
an idle keypad (no key pressed) reads all-high on P2.3–P2.6; in the OLED
variant that code decodes to `'D'`, so a fresh scanner's first idle poll
reports `Some 'D'`, not `None`. -/
theorem c7_idle_counterexample :
    (getKeypadInput none idleP2IN).2 = some 'D' ∧
    (getKeypadInput none idleP2IN).2 ≠ none := by
  decide

/-- Claim C7 as amended: a poll yields `None` whenever the sampled code is
not mapped by the lookup table (possible only in the 7-segment variant,
whose idle all-high sample shifts to the unmapped code 30 and so yields
`None`); in the OLED variant every 4-bit code is mapped and the idle
sample decodes to `'D'`, so only repeat suppression yields `None` there
and a fresh scanner's first idle poll reports `'D'`. -/
theorem c7_amended (lastKey : Option Char) (p : Nat)
    (h : decodeKey (Nat.land (p % 256) 0x78 >>> 2) = none) :
    (getKeypadInputSeg lastKey p).2 = none ∧
    (getKeypadInputSeg lastKey idleP2IN).2 = none ∧
    (getKeypadInput none idleP2IN).2 = some 'D' := by
  have gen : ∀ (lk : Option Char) (q : Nat),
      decodeKey (Nat.land (q % 256) 0x78 >>> 2) = none →
      (getKeypadInputSeg lk q).2 = none := by
    intro lk q hq
    simp only [getKeypadInputSeg]
    by_cases e : decodeKey (Nat.land (q % 256) 0x78 >>> 2) = lk
    · rw [if_pos e]
    · rw [if_neg e]
      exact hq
  exact ⟨gen lastKey p h, gen lastKey idleP2IN (by decide), by decide⟩

/-- Witness for C7 (amended) at an unmapped code. -/
theorem c7_amended_witness :
    decodeKey (Nat.land (0x78 % 256) 0x78 >>> 2) = none ∧
    (getKeypadInputSeg (some 'A') 0x78).2 = none :=
  ⟨by decide, (c7_amended (some 'A') 0x78 (by decide)).1⟩

/-- Claim C8: on a mismatched `D` confirmation, the single 7-segment
iteration's output trace is exactly the failure pattern, the fixed dwell,
and then the Locked-state render of the stored PIN — nothing in between;
the OLED iteration likewise flashes once before the locked LEDs. -/
theorem c8_failDwell (s : LockState) (h3 : s.mode = 3) (h4 : s.entry.length = 4)
    (hne : s.stored ≠ s.entry) :
    (handleSeg s 'D').2 =
      [updateDisplayOut ['8', '8', '8', '8'], Output.dwell, updateDisplayOut s.stored] ∧
    (handleSeg s 'D').1 = {s with mode := 2} ∧
    (handleOled s 'D').2 =
      [Output.msg msgWrongPin, Output.flashLocked,
       Output.ledLocked true, Output.ledUnlocked false] := by
  unfold handleSeg handleOled
  rw [h3, h4]
  simp +decide [hne, displayErrorOut]

/-- Witness for C8 at a concrete mismatching state. -/
theorem c8_failDwell_witness :
    (handleSeg ⟨3, ['1', '2', '3', '4'], ['9', '9', '9', '9']⟩ 'D').2 =
      [updateDisplayOut ['8', '8', '8', '8'], Output.dwell,
       updateDisplayOut ['1', '2', '3', '4']] ∧
    (handleSeg ⟨3, ['1', '2', '3', '4'], ['9', '9', '9', '9']⟩ 'D').1 =
      ⟨2, ['1', '2', '3', '4'], ['9', '9', '9', '9']⟩ :=
  ⟨(c8_failDwell ⟨3, ['1', '2', '3', '4'], ['9', '9', '9', '9']⟩ rfl rfl (by decide)).1,
   (c8_failDwell ⟨3, ['1', '2', '3', '4'], ['9', '9', '9', '9']⟩ rfl rfl (by decide)).2.1⟩

/-- Claim C9: the 7-segment variant masks bits 3–6 but shifts right by
only 2, so the decoded code is always even and at most 30; consequently a
poll can never report `'0'`, `'2'`, `'5'`, `'8'`, `'A'`, `'B'`, `'C'` or
`'D'`, and every code above 15 falls through to the no-key result. -/
theorem c9_shiftBug (lastKey : Option Char) (p : Nat) (k : Char)
    (h : (getKeypadInputSeg lastKey p).2 = some k) :
    (Nat.land (p % 256) 0x78 >>> 2) % 2 = 0 ∧
    Nat.land (p % 256) 0x78 >>> 2 ≤ 30 ∧
    (k ≠ '0' ∧ k ≠ '2' ∧ k ≠ '5' ∧ k ≠ '8' ∧
     k ≠ 'A' ∧ k ≠ 'B' ∧ k ≠ 'C' ∧ k ≠ 'D') ∧
    (∀ c : Nat, 15 < c → decodeKey c = none) := by
  have hmod : p % 256 < 256 := Nat.mod_lt _ (by omega)
  obtain ⟨hev, hle⟩ := segCode_even_le (p % 256) hmod
  have hk : decodeKey (Nat.land (p % 256) 0x78 >>> 2) = some k := by
    simp only [getKeypadInputSeg] at h
    by_cases e : decodeKey (Nat.land (p % 256) 0x78 >>> 2) = lastKey
    · rw [if_pos e] at h
      exact absurd h (by simp)
    · rw [if_neg e] at h
      exact h
  have hmem := segDecode_mem (p % 256) hmod
  rw [hk] at hmem
  refine ⟨hev, hle, ?_, decodeKey_gt15⟩
  simp only [List.mem_cons, List.not_mem_nil, or_false,
    Option.some.injEq, reduceCtorEq, false_or] at hmem
  rcases hmem with hmem | hmem | hmem | hmem | hmem | hmem | hmem | hmem <;>
    subst hmem <;> decide

/-- Witness for C9 at the all-low sample, which reports `'1'`. -/
theorem c9_shiftBug_witness :
    (getKeypadInputSeg none 0).2 = some '1' ∧
    (Nat.land (0 % 256) 0x78 >>> 2) % 2 = 0 ∧
    ('1' : Char) ≠ '0' :=
  ⟨by decide, (c9_shiftBug none 0 '1' (by decide)).1,
   (c9_shiftBug none 0 '1' (by decide)).2.2.1.1⟩

/-- Claim C10: in the 7-segment variant, the `B` confirmation, the failed
`D` confirmation (both entering Locked) and the successful `D`
confirmation (entering Unlocked) all render the current stored PIN itself
on the display, so the secret PIN is shown while the system is locked. -/
theorem c10_pinShown (s : LockState) :
    (s.mode = 1 → s.entry.length = 4 →
      (handleSeg s 'B').1.stored = s.entry ∧
      (handleSeg s 'B').2 = [updateDisplayOut (handleSeg s 'B').1.stored]) ∧
    (s.mode = 3 → s.entry.length = 4 → s.stored = s.entry →
      (handleSeg s 'D').1.mode = 0 ∧
      (handleSeg s 'D').2 = [updateDisplayOut s.stored]) ∧
    (s.mode = 3 → s.entry.length = 4 → s.stored ≠ s.entry →
      (handleSeg s 'D').1.mode = 2 ∧
      (handleSeg s 'D').2 =
        [updateDisplayOut ['8', '8', '8', '8'], Output.dwell,
         updateDisplayOut s.stored]) := by
  refine ⟨?_, ?_, ?_⟩
  · intro h1 h4
    unfold handleSeg
    rw [h1, h4]
    simp +decide
  · intro h3 h4 he
    unfold handleSeg
    rw [h3, h4]
    simp +decide [he]
  · intro h3 h4 hne
    unfold handleSeg
    rw [h3, h4]
    simp +decide [hne, displayErrorOut]

/-- Witness for C10: all three transitions at concrete states render the
stored PIN. -/
theorem c10_pinShown_witness :
    ((handleSeg ⟨1, pinDefault, ['1', '2', '3', '4']⟩ 'B').1.stored = ['1', '2', '3', '4'] ∧
     (handleSeg ⟨1, pinDefault, ['1', '2', '3', '4']⟩ 'B').2 =
       [updateDisplayOut (handleSeg ⟨1, pinDefault, ['1', '2', '3', '4']⟩ 'B').1.stored]) ∧
    ((handleSeg ⟨3, ['1', '2', '3', '4'], ['1', '2', '3', '4']⟩ 'D').1.mode = 0 ∧
     (handleSeg ⟨3, ['1', '2', '3', '4'], ['1', '2', '3', '4']⟩ 'D').2 =
       [updateDisplayOut ['1', '2', '3', '4']]) ∧
    ((handleSeg ⟨3, ['1', '2', '3', '4'], ['9', '9', '9', '9']⟩ 'D').1.mode = 2 ∧
     (handleSeg ⟨3, ['1', '2', '3', '4'], ['9', '9', '9', '9']⟩ 'D').2 =
       [updateDisplayOut ['8', '8', '8', '8'], Output.dwell,
        updateDisplayOut ['1', '2', '3', '4']]) :=
  ⟨(c10_pinShown ⟨1, pinDefault, ['1', '2', '3', '4']⟩).1 rfl rfl,
   (c10_pinShown ⟨3, ['1', '2', '3', '4'], ['1', '2', '3', '4']⟩).2.1 rfl rfl rfl,
   (c10_pinShown ⟨3, ['1', '2', '3', '4'], ['9', '9', '9', '9']⟩).2.2 rfl rfl (by decide)⟩
